import Mathlib

/-
Verification of the burr crawler engine (github.com/FranksOps/burr).

Shallow embedding conventions:
  - Go strings and byte slices are modelled as List Char (abbrev Str);
    Go function names are kept where Lean permits.
  - Effectful Go code is modelled by passing the outcomes of its external
    calls (HTTP round trips, the random draw, context cancellation, the
    robots.txt library parse) explicitly in an environment record, and by
    returning updated state instead of mutating it.
  - Machine integers are modelled as Int or Nat; durations as Rat
    (nanosecond truncation of Go time.Duration is not modelled).
  - Go strings.ToLower is modelled at the ASCII level by Char.toLower,
    which performs the same A-Z to a-z mapping.
-/

namespace Burr

/-- Str models a Go string (or byte slice) as a list of characters. -/
abbrev Str := List Char

/-- Coerce a Lean string literal to the Str model. -/
def str (s : String) : Str := s.data

/-- Model of Go strings.ToLower restricted to ASCII, via Char.toLower
(the identical A-Z shift by 32). -/
def lowerStr (s : Str) : Str := s.map Char.toLower

/-- Model of unicode.IsSpace on the characters relevant to this code base
(the Latin-1 white space set used by strings.TrimSpace). -/
def isSpaceChar (c : Char) : Bool :=
  c = ' ' || c = '\t' || c = '\n' || c = '\r' ||
  c = Char.ofNat 11 || c = Char.ofNat 12 || c = Char.ofNat 133 || c = Char.ofNat 160

/-- Model of Go strings.TrimSpace: drop white space from both ends. -/
def trimSpace (s : Str) : Str :=
  ((s.dropWhile isSpaceChar).reverse.dropWhile isSpaceChar).reverse

/-- Test whether pat occurs at the start of s (Go strings.HasPrefix). -/
def startsWith : Str → Str → Bool
  | _, [] => true
  | [], _ :: _ => false
  | c :: s, p :: ps => c = p && startsWith s ps

/-- Test whether pat occurs at the end of s (Go strings.HasSuffix). -/
def endsWith (s pat : Str) : Bool := startsWith s.reverse pat.reverse

/-- Model of Go strings.Contains: pat occurs somewhere in s. -/
def containsSub (s pat : Str) : Bool :=
  match s with
  | [] => pat.isEmpty
  | c :: t => startsWith (c :: t) pat || containsSub t pat

/-- Inner loop of Go strings.Count: number of non-overlapping occurrences of a
non-empty pattern, scanning left to right and skipping past each match. -/
def countLoop (s pat : Str) : Nat :=
  match s with
  | [] => 0
  | c :: t =>
    if startsWith (c :: t) pat then
      1 + countLoop (t.drop (pat.length - 1)) pat
    else
      countLoop t pat
termination_by s.length
decreasing_by
  · simp only [List.length_drop, List.length_cons]
    omega
  · simp only [List.length_cons]
    omega

/-- Model of Go strings.Count: for the empty pattern, one more than the number
of characters; otherwise the number of non-overlapping occurrences. -/
def countSub (s pat : Str) : Nat :=
  if pat.isEmpty then s.length + 1 else countLoop s pat

theorem countLoop_eq_zero_iff (s pat : Str) (hp : pat ≠ []) :
    countLoop s pat = 0 ↔ containsSub s pat = false := by
  revert hp
  induction s, pat using countLoop.induct with
  | case1 pat =>
    intro hp
    simp [countLoop, containsSub, List.isEmpty_iff, hp]
  | case2 pat c t hst _ =>
    intro hp
    rw [countLoop, if_pos hst]
    simp [containsSub, hst]
  | case3 pat c t hst ih =>
    intro hp
    rw [countLoop, if_neg hst]
    simp [containsSub, hst, ih hp]

theorem countSub_eq_zero_iff (s pat : Str) :
    countSub s pat = 0 ↔ containsSub s pat = false := by
  by_cases hp : pat = []
  · subst hp
    simp [countSub, containsSub, List.isEmpty_iff]
    cases s <;> simp [containsSub, startsWith]
  · rw [countSub, if_neg (by simpa [List.isEmpty_iff] using hp)]
    exact countLoop_eq_zero_iff s pat hp

/-
Embedding of internal/storage: the ScrapeResult record
(src/unnamed/part_001). Headers, a Go map from names to value lists, are
modelled as an association list; UUIDs and timestamps are opaque data
supplied by the environment.
-/

/-- ScrapeResult models storage.ScrapeResult: the outcome of one fetch. -/
structure ScrapeResult where
  id : Str := []
  url : Str := []
  method : Str := []
  statusCode : Int := 0
  headers : List (Str × List Str) := []
  body : Str := []
  duration : Int := 0
  detectedBot : Bool := false
  detectionSrc : Str := []
  createdAt : Int := 0
  error : Str := []
deriving Repr, DecidableEq

/-
Embedding of internal/bypass (src/unnamed/part_002): the challenge
detector chain. The Go map iteration in the case-insensitive fallback of
getHeader is nondeterministic; the association list fixes one order, which
is irrelevant to the properties proved here.
-/

/-- Model of the bypass getHeader helper: exact-key lookup first, then a
case-insensitive scan; only entries with at least one value count. -/
def getHeader (headers : List (Str × List Str)) (key : Str) : Str :=
  match headers.find? (fun kv => kv.1 == key && !kv.2.isEmpty) with
  | some kv => kv.2.headI
  | none =>
    match headers.find? (fun kv => lowerStr kv.1 == lowerStr key && !kv.2.isEmpty) with
    | some kv => kv.2.headI
    | none => []

/-- Detector models the bypass.Detector function type. -/
abbrev Detector := ScrapeResult → Bool × Str

/-- Model of bypass.detectCloudflare: status 403 or 503, then the Server
header or one of four body signatures. -/
def detectCloudflare (res : ScrapeResult) : Bool × Str :=
  if res.statusCode == 403 || res.statusCode == 503 then
    if containsSub (lowerStr (getHeader res.headers (str "Server"))) (str "cloudflare") then
      (true, str "Cloudflare")
    else if containsSub res.body (str "cf-browser-verification") ||
        containsSub res.body (str "cloudflare-nginx") ||
        containsSub res.body (str "cf-turnstile") ||
        containsSub res.body (str "Attention Required! | Cloudflare") then
      (true, str "Cloudflare")
    else (false, [])
  else (false, [])

/-- Model of bypass.detectAkamai: status 403, then the Server header or the
two body signatures together. -/
def detectAkamai (res : ScrapeResult) : Bool × Str :=
  if res.statusCode == 403 then
    if containsSub (lowerStr (getHeader res.headers (str "Server"))) (str "akamai") then
      (true, str "Akamai")
    else if containsSub res.body (str "Reference #") &&
        containsSub res.body (str "Access Denied") then
      (true, str "Akamai")
    else (false, [])
  else (false, [])

/-- Model of bypass.detectDataDome: status 403, then the Server header, the
two DataDome headers, or the two body signatures. -/
def detectDataDome (res : ScrapeResult) : Bool × Str :=
  if res.statusCode == 403 then
    if containsSub (lowerStr (getHeader res.headers (str "Server"))) (str "datadome") then
      (true, str "DataDome")
    else if !(getHeader res.headers (str "X-DataDome")).isEmpty ||
        !(getHeader res.headers (str "X-DataDome-Response")).isEmpty then
      (true, str "DataDome")
    else if containsSub res.body (str "geo.captcha-delivery.com") ||
        containsSub res.body (str "datadome") then
      (true, str "DataDome")
    else (false, [])
  else (false, [])

/-- Model of bypass.detectPerimeterX: status 403, then the X-Px-Captcha
header or the three body signatures. -/
def detectPerimeterX (res : ScrapeResult) : Bool × Str :=
  if res.statusCode == 403 then
    if !(getHeader res.headers (str "X-Px-Captcha")).isEmpty then
      (true, str "PerimeterX")
    else if containsSub res.body (str "client.perimeterx.net") ||
        containsSub res.body (str "px-captcha") ||
        containsSub res.body (str "_pxBlock") then
      (true, str "PerimeterX")
    else (false, [])
  else (false, [])

/-- Model of bypass.DefaultDetectors: the fixed ordered detector chain. -/
def DefaultDetectors : List Detector :=
  [detectCloudflare, detectAkamai, detectDataDome, detectPerimeterX]

/-- Model of bypass.Analyze: run the detectors in order, record the first
match in the result and stop; clear both detection fields when none match.
The Go version mutates res in place; here the updated record and the
matched flag are returned. (The Go nil-pointer guard has no counterpart
in a value model.) -/
def Analyze (res : ScrapeResult) : List Detector → ScrapeResult × Bool
  | [] => ({ res with detectedBot := false, detectionSrc := [] }, false)
  | d :: ds =>
    match d res with
    | (true, source) => ({ res with detectedBot := true, detectionSrc := source }, true)
    | (false, _) => Analyze res ds

/-
Embedding of pkg/httpclient (src/unnamed/part_007): the redirect policy
installed by New, and the redirect-following loop of the wrapped
net/http client driven by that policy. The loop is modelled over the
sequence of hops the server produces; via starts with one entry (the
initial request), matching net/http, and the numeral in the Go error
message is elided.
-/

/-- HttpResponse models one HTTP exchange as seen by the Fetcher: a status,
headers, the bytes io.ReadAll produced, and whether the read failed. -/
structure HttpResponse where
  statusCode : Int := 0
  headers : List (Str × List Str) := []
  body : Str := []
  readErr : Option Str := none
deriving Repr, DecidableEq

/-- RedirectDecision models the outcomes of a CheckRedirect callback. -/
inductive RedirectDecision where
  | follow
  | stop (msg : Str)
  | useLastResponse
deriving Repr, DecidableEq

/-- Model of the CheckRedirect policy that httpclient.New installs: with a
non-negative cap, stop with an error once the via list has reached the cap;
with a negative cap, never follow (return the last response). -/
def checkRedirect (maxRedirects : Int) (viaLen : Nat) : RedirectDecision :=
  if 0 ≤ maxRedirects then
    if maxRedirects ≤ (viaLen : Int) then .stop (str "stopped after redirects")
    else .follow
  else .useLastResponse

/-- RespStep is one hop of a server conversation: a redirect response or a
final response. -/
inductive RespStep where
  | redirect (resp : HttpResponse)
  | final (resp : HttpResponse)
deriving Repr, DecidableEq

/-- Redirect-following loop of the wrapped net/http client: on each redirect
hop consult the policy; an empty hop list stands for a transport failure. -/
def followRedirects (maxRedirects : Int) : Nat → List RespStep → Except Str HttpResponse
  | _, [] => .error (str "transport failure")
  | _, .final resp :: _ => .ok resp
  | viaLen, .redirect resp :: rest =>
    match checkRedirect maxRedirects viaLen with
    | .follow => followRedirects maxRedirects (viaLen + 1) rest
    | .stop msg => .error msg
    | .useLastResponse => .ok resp

/-- Model of httpclient Client.Do for a dispatched request: follow the hops
from via length 1, wrapping any error as Go fmt Errorf does. -/
def clientDo (maxRedirects : Int) (hops : List RespStep) : Except Str HttpResponse :=
  match followRedirects maxRedirects 1 hops with
  | .ok resp => .ok resp
  | .error e => .error (str "context: " ++ e)

/-
Embedding of internal/scraper/fetcher.go. FetchConfig keeps the fields
Fetch branches on; NewFetcher's config defaulting is modelled by
newFetcherConfig. The outcomes of external calls made by Fetch are
supplied in a FetchEnv record.
-/

/-- FetchConfig models scraper.FetchConfig (strategy pointers reduced to
presence flags; the fingerprint profile is not consulted by Fetch). -/
structure FetchConfig where
  timeout : Int := 0
  maxRedirects : Int := 0
  useCookieJar : Bool := false
  proxyPoolAttached : Bool := false
  limiterAttached : Bool := false
deriving Repr, DecidableEq

/-- Model of the config defaulting NewFetcher performs before handing the
config to httpclient.New: only the timeout is defaulted (to 30 seconds,
in nanoseconds); MaxRedirects and UseCookieJar pass through unchanged. -/
def newFetcherConfig (cfg : FetchConfig) : FetchConfig :=
  { cfg with timeout := if cfg.timeout == 0 then 30000000000 else cfg.timeout }

/-- FetchEnv carries the outcomes of the external calls one Fetch makes:
the limiter wait, proxy pool Next, request construction, the client
round trip (including the body read), plus the minted id and clock. -/
structure FetchEnv where
  limiterErr : Option Str := none
  proxyAvailable : Bool := false
  newRequestErr : Option Str := none
  doOutcome : Except Str HttpResponse := .error []
  newId : Str := []
  now : Int := 0
  elapsed : Int := 0
deriving Repr

/-- Model of Fetcher.Fetch: returns the pair (result pointer, Go error).
Every early return carries the partially filled result and a nil error;
the success path reads the body (recording a read failure in the error
field while keeping the response data) and runs the detector chain.
Proxy bookkeeping and metrics are effects outside the returned value. -/
def Fetch (cfg : FetchConfig) (env : FetchEnv) (targetURL : Str) :
    Option ScrapeResult × Option Str :=
  match cfg.limiterAttached, env.limiterErr with
  | true, some e =>
    (some { id := env.newId, url := targetURL, method := str "GET",
            createdAt := env.now,
            error := str "rate limiter failed: " ++ e }, none)
  | _, _ =>
    let base : ScrapeResult :=
      { id := env.newId, url := targetURL, method := str "GET", createdAt := env.now }
    match env.newRequestErr with
    | some e =>
      (some { base with error := str "failed to create request: " ++ e,
                        duration := env.elapsed }, none)
    | none =>
      match env.doOutcome with
      | .error e =>
        (some { base with error := str "request failed: " ++ e,
                          duration := env.elapsed }, none)
      | .ok resp =>
        let withBody : ScrapeResult :=
          { base with
            statusCode := resp.statusCode,
            headers := resp.headers,
            body := resp.body,
            duration := env.elapsed,
            error := match resp.readErr with
                     | some e => str "failed to read body: " ++ e
                     | none => [] }
        (some (Analyze withBody DefaultDetectors).1, none)

/-
Embedding of pkg/ratelimit (src/unnamed/part_006). Durations are rationals
in nanoseconds (Go's truncation of time.Duration to integer nanoseconds is
not modelled); the random draw of rand.Float64 and the two cancellation
points are supplied by a WaitEnv.
-/

/-- Limiter models ratelimit.Limiter; hasTicker stands for a non-nil tick
channel. -/
structure Limiter where
  hasTicker : Bool
  jitter : ℚ
  interval : ℚ
deriving Repr, DecidableEq

/-- Nanoseconds in Go time.Second. -/
def goSecond : ℚ := 1000000000

/-- Model of ratelimit.NewLimiter: a non-positive rps yields a limiter with
no ticker; otherwise the jitter is clamped into the unit interval and the
tick interval is one second divided by rps. -/
def NewLimiter (rps jitter : ℚ) : Limiter :=
  if rps ≤ 0 then
    { hasTicker := false, jitter := jitter, interval := 0 }
  else
    let j := if jitter < 0 then 0 else if 1 < jitter then 1 else jitter
    { hasTicker := true, jitter := j, interval := goSecond / rps }

/-- WaitEnv carries the nondeterminism of one Wait call: whether the
context fired before the tick, the rand.Float64 draw, and whether the
context fired during the jitter sleep. -/
structure WaitEnv where
  ctxDoneBeforeTick : Bool := false
  draw : ℚ := 0
  ctxDoneDuringJitter : Bool := false
deriving Repr, DecidableEq

/-- WaitResult describes how one Wait call ended: immediately (no ticker),
cancelled at one of the two select points, or after a tick plus the given
extra jitter sleep. -/
inductive WaitResult where
  | immediate
  | cancelledBeforeTick
  | cancelledDuringJitter
  | ticked (extraSleep : ℚ)
deriving Repr, DecidableEq

/-- Model of Limiter.Wait: return at once without a ticker; otherwise wait
for the tick (or cancellation); with positive jitter draw a factor in
[-1,1) and sleep the extra duration only when it is positive. -/
def Wait (l : Limiter) (env : WaitEnv) : WaitResult :=
  if !l.hasTicker then .immediate
  else if env.ctxDoneBeforeTick then .cancelledBeforeTick
  else if 0 < l.jitter then
    let jitterFactor := env.draw * 2 - 1
    let jitterDuration := l.interval * l.jitter * jitterFactor
    if 0 < jitterDuration then
      if env.ctxDoneDuringJitter then .cancelledDuringJitter
      else .ticked jitterDuration
    else .ticked 0
  else .ticked 0

/-
Embedding of the net/url views the crawler uses. Two views of Go's url
package appear in the source: shouldVisit and markVisited work on the
parsed components (scheme, host, port, path, query, fragment), while the
canonicalization for the visited set is parse, clear Fragment, String.
GoHierURL models the parsed form; urlString models URL.String for it.
-/

/-- GoHierURL models a parsed absolute http(s)-style URL as net/url
presents it to crawler.go: host is the Hostname (no port). -/
structure GoHierURL where
  scheme : Str := []
  host : Str := []
  port : Str := []
  path : Str := []
  query : Str := []
  fragment : Str := []
deriving Repr, DecidableEq

/-- Model of URL.String on the parsed form: scheme, authority, path, then
query and fragment only when present. -/
def urlString (u : GoHierURL) : Str :=
  u.scheme ++ str "://" ++ u.host ++
  (if u.port.isEmpty then [] else ':' :: u.port) ++
  u.path ++
  (if u.query.isEmpty then [] else '?' :: u.query) ++
  (if u.fragment.isEmpty then [] else '#' :: u.fragment)

/-- Model of the URL.Host field (authority with port) used by the robots
auditor key. -/
def urlHostPort (u : GoHierURL) : Str :=
  u.host ++ (if u.port.isEmpty then [] else ':' :: u.port)

/-
String-level model of the canonicalization the crawler performs on a raw
URL: url.Parse, clear Fragment, URL.String. At this level net/url
lowercases the scheme, cuts the fragment at the first hash sign, and
leaves the remainder intact (percent-encoding normalization is not
modelled). Parsing is modelled for absolute URLs: a valid scheme followed
by a colon; Go accepts scheme-less relative references too, which the
crawler does not canonicalize differently, so they stay outside this
model.
-/

/-- Character class of a URL scheme after its first character (RFC 3986 as
implemented by net/url getScheme): ASCII letter, digit, plus, minus, dot. -/
def isSchemeChar (c : Char) : Bool :=
  (65 ≤ c.toNat && c.toNat ≤ 90) || (97 ≤ c.toNat && c.toNat ≤ 122) ||
  (48 ≤ c.toNat && c.toNat ≤ 57) || c = '+' || c = '-' || c = '.'

/-- Character class of the first scheme character: an ASCII letter. -/
def isAlphaChar (c : Char) : Bool :=
  (65 ≤ c.toNat && c.toNat ≤ 90) || (97 ≤ c.toNat && c.toNat ≤ 122)

/-- Validity of a scheme name: nonempty, letter first, scheme characters
after. -/
def validScheme (s : Str) : Bool :=
  match s with
  | [] => false
  | c :: cs => isAlphaChar c && cs.all isSchemeChar

/-- FlatURL is the string-level parse of an absolute URL: scheme (already
lowercased by Parse), everything between the colon and the fragment, and
the fragment. -/
structure FlatURL where
  scheme : Str
  rest : Str
  fragment : Str
deriving Repr, DecidableEq

/-- Model of url.Parse on absolute URLs: split the fragment at the first
hash sign, require a valid scheme before the first colon, and lowercase
the scheme as net/url getScheme does. -/
def parseAbs (s : Str) : Option FlatURL :=
  let beforeFrag := s.takeWhile (fun c => c != '#')
  let frag := (s.dropWhile (fun c => c != '#')).tail
  let schemePart := beforeFrag.takeWhile (fun c => c != ':')
  match beforeFrag.dropWhile (fun c => c != ':') with
  | [] => none
  | _ :: rest =>
    if validScheme schemePart then
      some { scheme := lowerStr schemePart, rest := rest, fragment := frag }
    else none

/-- Model of URL.String on the flat parse: scheme, colon, remainder, and
the fragment when present. -/
def flatString (u : FlatURL) : Str :=
  u.scheme ++ ':' :: u.rest ++ (if u.fragment.isEmpty then [] else '#' :: u.fragment)

/-- Canonicalization as shouldVisit and markVisited perform it on a raw
URL string: parse, clear the fragment, serialize. none when the parse
fails. -/
def canonURL (s : Str) : Option Str :=
  (parseAbs s).map (fun u => flatString { u with fragment := [] })

/-
Embedding of internal/scraper/crawler.go: shouldVisit and markVisited.
The url.Parse step is supplied as an already-parsed Option GoHierURL; the
visited map is an association-free list of canonical strings with
set semantics (insertion keeps one copy, as a Go map does).
-/

/-- Model of Crawler.shouldVisit on a parsed URL: reject a failed parse;
normalize by clearing the fragment; reject an already-visited URL; with a
nonempty scope list require the lowercased hostname to equal a listed
domain (lowercased) or to end in dot plus that domain; finally require an
http or https scheme. -/
def shouldVisit (visited : List Str) (domains : List Str) (parsed : Option GoHierURL) : Bool :=
  match parsed with
  | none => false
  | some u =>
    let normalized := urlString { u with fragment := [] }
    if visited.contains normalized then false
    else
      let inScope :=
        if domains.isEmpty then true
        else
          let host := lowerStr u.host
          domains.any (fun domain =>
            let d := lowerStr domain
            host == d || endsWith host ('.' :: d))
      if !inScope then false
      else if !(u.scheme == str "http" || u.scheme == str "https") then false
      else true

/-- Model of Crawler.markVisited on a parsed URL: insert the normalized
(fragment-cleared) string into the visited set; map insertion keeps a
single copy. -/
def markVisited (visited : List Str) (u : GoHierURL) : List Str :=
  let normalized := urlString { u with fragment := [] }
  if visited.contains normalized then visited else normalized :: visited

/-
Interleaving model for the visited-set admission race (crawler.go). A
worker that discovered a link runs shouldVisit (the membership test under
the read lock, crawler.go lines 221-223) and, when it returns true, later
runs markVisited (the insert under the write lock, lines 260-262) and
enqueues (lines 198-206). The two lock acquisitions are separate critical
sections, so steps of the other worker can fall between them. Each
schedule entry picks which worker performs its next atomic step.
-/

/-- WorkerPC is the control point of one worker handling one link: before
the admission test, after it (carrying its outcome), or finished. -/
inductive WorkerPC where
  | start
  | checked (ok : Bool)
  | done
deriving Repr, DecidableEq

/-- RaceState is the shared crawl state restricted to one contested link:
the visited set, how many times the link was enqueued, and both workers. -/
structure RaceState where
  visited : List Str
  enqueued : Nat
  w1 : WorkerPC
  w2 : WorkerPC
deriving Repr, DecidableEq

/-- One atomic step of a single worker processing link u under scope list
domains: the shouldVisit call, then (on admission) the markVisited insert
together with the enqueue. Combining insert and enqueue into one atomic
step only makes the model stricter than the code. -/
def workerStep (domains : List Str) (u : GoHierURL) (pc : WorkerPC)
    (visited : List Str) (enqueued : Nat) : WorkerPC × List Str × Nat :=
  match pc with
  | .start => (.checked (shouldVisit visited domains (some u)), visited, enqueued)
  | .checked true => (.done, markVisited visited u, enqueued + 1)
  | .checked false => (.done, visited, enqueued)
  | .done => (.done, visited, enqueued)

/-- Advance the scheduled worker (true picks worker one) by one step. -/
def raceStep (domains : List Str) (u : GoHierURL) (who : Bool) (s : RaceState) : RaceState :=
  if who then
    let (pc, v, n) := workerStep domains u s.w1 s.visited s.enqueued
    { s with w1 := pc, visited := v, enqueued := n }
  else
    let (pc, v, n) := workerStep domains u s.w2 s.visited s.enqueued
    { s with w2 := pc, visited := v, enqueued := n }

/-- Run a schedule of worker picks from a state. -/
def raceRun (domains : List Str) (u : GoHierURL) (sched : List Bool) (s : RaceState) : RaceState :=
  sched.foldl (fun s who => raceStep domains u who s) s

/-- Initial race state: the link is unvisited and both workers are about
to test it. -/
def raceInit : RaceState :=
  { visited := [], enqueued := 0, w1 := .start, w2 := .start }

/-
Embedding of the robots.txt auditor (src/unnamed/part_003). The
robotstxt library is external: its FromBytes outcome is supplied in the
environment, and a parsed RobotsData is abstracted to the group test the
auditor calls plus the sitemap list. The cache is an association list
keyed by scheme plus host; an entry holding none is the failure sentinel
the code stores. The double-checked locking collapses in this sequential
model.
-/

/-- RobotsData abstracts a parsed robots.txt: the FindGroup-and-Test
answer for a user agent and path, and the sitemap directives. -/
structure RobotsData where
  test : Str → Str → Bool
  sitemaps : List Str

/-- RobotsEnv carries the externals of one cache-miss fetch: the fetcher
configuration and fetch outcomes, and the robotstxt.FromBytes outcome. -/
structure RobotsEnv where
  fetchCfg : FetchConfig
  fetchEnv : FetchEnv
  parseOutcome : Except Str RobotsData

/-- RobotsCache models the auditor cache map; an entry holding none is
the fetch-failed sentinel. -/
abbrev RobotsCache := List (Str × Option RobotsData)

/-- Model of RobotsTxtAuditor.getOrFetch: answer from the cache when the
host is present; otherwise fetch robots.txt with the redirect cap forced
to 5 (restored afterwards), cache the none sentinel on a fetch error, on
a status of 400 or above (returning no data and no error), and on a parse
error (returning the error); cache and return the parsed data otherwise.
The Go-error branch after Fetch is dead code in this model because Fetch
never returns a Go error. -/
def getOrFetch (cache : RobotsCache) (host : Str) (env : RobotsEnv) :
    RobotsCache × Except Str (Option RobotsData) :=
  match cache.find? (fun kv => kv.1 == host) with
  | some kv => (cache, .ok kv.2)
  | none =>
    let robotsCfg := { env.fetchCfg with maxRedirects := 5 }
    let result := (Fetch robotsCfg env.fetchEnv (host ++ str "/robots.txt")).1.getD {}
    if !result.error.isEmpty then
      ((host, none) :: cache, .error (str "fetch error: " ++ result.error))
    else if 400 ≤ result.statusCode then
      ((host, none) :: cache, .ok none)
    else
      match env.parseOutcome with
      | .error e => ((host, none) :: cache, .error (str "parse error: " ++ e))
      | .ok parsed => ((host, some parsed) :: cache, .ok (some parsed))

/-- Model of RobotsTxtAuditor.IsAllowed: reject an unparsable URL with an
error; otherwise key the cache by scheme plus authority, and on any
getOrFetch error or on the none sentinel answer allow with no error
(logging only); with parsed data answer the group test for the user
agent and the path. -/
def IsAllowed (cache : RobotsCache) (env : RobotsEnv) (parsedURL : Option GoHierURL)
    (userAgent : Str) : RobotsCache × Except Str Bool :=
  match parsedURL with
  | none => (cache, .error (str "invalid url"))
  | some u =>
    let host := u.scheme ++ str "://" ++ urlHostPort u
    match getOrFetch cache host env with
    | (c, .error _) => (c, .ok true)
    | (c, .ok none) => (c, .ok true)
    | (c, .ok (some data)) => (c, .ok (data.test userAgent u.path))

/-
Embedding of internal/analyzer/matcher.go: the optimized term matcher and
its sentence splitter.
-/

/-- TermMatch models analyzer.TermMatch. -/
structure TermMatch where
  term : Str
  url : Str
  domain : Str
  count : Nat
  sentences : List Str
deriving Repr, DecidableEq

/-- SentenceData models the analyzer sentenceData pair: a trimmed sentence
and its lowercased form. -/
structure SentenceData where
  original : Str
  lower : Str
deriving Repr, DecidableEq

/-- Sentence delimiter set of the splitter. -/
def isDelimChar (c : Char) : Bool := c = '.' || c = '!' || c = '?'

/-- Build one SentenceData from trimmed text. -/
def mkSentenceData (s : Str) : SentenceData :=
  { original := trimSpace s, lower := lowerStr (trimSpace s) }

/-- Recursive core of splitIntoSentencesOptimized: scan to the next
delimiter, take it plus the following white space as one sentence
(trimmed), and continue; leftover text without a delimiter forms a final
sentence. Mirrors the index loop of the Go code, whose start cursor jumps
over exactly this decomposition. -/
def splitGo (s : Str) : List SentenceData :=
  let pre := s.takeWhile (fun c => !isDelimChar c)
  match hrest : s.dropWhile (fun c => !isDelimChar c) with
  | [] => if s.isEmpty then [] else [mkSentenceData s]
  | d :: after =>
    mkSentenceData (pre ++ d :: after.takeWhile isSpaceChar)
      :: splitGo (after.dropWhile isSpaceChar)
termination_by s.length
decreasing_by
  have hlen : (s.dropWhile (fun c => !isDelimChar c)).length ≤ s.length :=
    (List.dropWhile_sublist _).length_le
  rw [hrest] at hlen
  have hdw : (after.dropWhile isSpaceChar).length ≤ after.length :=
    (List.dropWhile_sublist _).length_le
  simp only [List.length_cons] at hlen
  omega

/-- Model of analyzer.splitIntoSentencesOptimized. -/
def splitIntoSentencesOptimized (text : Str) : List SentenceData :=
  if text.isEmpty then [] else splitGo text

/-- Model of analyzer.FindTermMatchesOptimized: empty content or an empty
term list yields nothing; otherwise each term whose lowercased form has a
nonzero count in the lowercased content contributes one TermMatch whose
sentences are the (pre-split) sentences whose lowercased form contains
the lowercased term, in document order, by original trimmed text. The
inner Go loop appending matches is written as filter and map; the outer
loop is the ftmLoop recursion in term order. -/
def ftmLoop (lowerContent url domain : Str) (sentenceData : List SentenceData) :
    List Str → List TermMatch
  | [] => []
  | term :: rest =>
    let lowerTerm := lowerStr term
    let count := countSub lowerContent lowerTerm
    if count == 0 then ftmLoop lowerContent url domain sentenceData rest
    else
      { term := term, url := url, domain := domain, count := count,
        sentences := (sentenceData.filter
            (fun sd => containsSub sd.lower lowerTerm)).map
            (fun sd => sd.original) }
        :: ftmLoop lowerContent url domain sentenceData rest

/-- Model of analyzer.FindTermMatchesOptimized: the guards for empty
content, empty term list and empty sentence data, then the term loop. -/
def findTermMatchesOptimized (content url domain : Str) (terms : List Str) : List TermMatch :=
  if content.isEmpty || terms.isEmpty then []
  else
    let lowerContent := lowerStr content
    let sentenceData := splitIntoSentencesOptimized content
    if sentenceData.isEmpty then []
    else ftmLoop lowerContent url domain sentenceData terms

/-
Helper lemmas about Analyze: the detector chain only writes the two
detection fields, and each default detector names its own vendor.
-/

theorem Analyze_error (res : ScrapeResult) (ds : List Detector) :
    ((Analyze res ds).1).error = res.error := by
  induction ds with
  | nil => rfl
  | cons d ds ih =>
    rcases h : d res with ⟨b, s⟩
    cases b <;> simp [Analyze, h, ih]

theorem Analyze_statusCode (res : ScrapeResult) (ds : List Detector) :
    ((Analyze res ds).1).statusCode = res.statusCode := by
  induction ds with
  | nil => rfl
  | cons d ds ih =>
    rcases h : d res with ⟨b, s⟩
    cases b <;> simp [Analyze, h, ih]

theorem detectCloudflare_update (res : ScrapeResult) (b : Bool) (s : Str) :
    detectCloudflare { res with detectedBot := b, detectionSrc := s } = detectCloudflare res :=
  rfl

theorem detectAkamai_update (res : ScrapeResult) (b : Bool) (s : Str) :
    detectAkamai { res with detectedBot := b, detectionSrc := s } = detectAkamai res :=
  rfl

theorem detectDataDome_update (res : ScrapeResult) (b : Bool) (s : Str) :
    detectDataDome { res with detectedBot := b, detectionSrc := s } = detectDataDome res :=
  rfl

theorem detectPerimeterX_update (res : ScrapeResult) (b : Bool) (s : Str) :
    detectPerimeterX { res with detectedBot := b, detectionSrc := s } = detectPerimeterX res :=
  rfl

theorem detectCloudflare_cases (res : ScrapeResult) :
    detectCloudflare res = (false, []) ∨ detectCloudflare res = (true, str "Cloudflare") := by
  unfold detectCloudflare
  split_ifs <;> simp

theorem detectAkamai_cases (res : ScrapeResult) :
    detectAkamai res = (false, []) ∨ detectAkamai res = (true, str "Akamai") := by
  unfold detectAkamai
  split_ifs <;> simp

theorem detectDataDome_cases (res : ScrapeResult) :
    detectDataDome res = (false, []) ∨ detectDataDome res = (true, str "DataDome") := by
  unfold detectDataDome
  split_ifs <;> simp

theorem detectPerimeterX_cases (res : ScrapeResult) :
    detectPerimeterX res = (false, []) ∨ detectPerimeterX res = (true, str "PerimeterX") := by
  unfold detectPerimeterX
  split_ifs <;> simp

/-- C3: running the default detector chain leaves the result either with
detected_bot true and a detection source drawn from the four vendors
Cloudflare, Akamai, DataDome, PerimeterX (the first matching detector in
the fixed order), or with both detection fields cleared; and running
Analyze again on its own output changes nothing (idempotence). -/
theorem analyze_default_chain_sound (res : ScrapeResult) :
    (((Analyze res DefaultDetectors).1.detectedBot = true ∧
       ((Analyze res DefaultDetectors).1.detectionSrc = str "Cloudflare" ∨
        (Analyze res DefaultDetectors).1.detectionSrc = str "Akamai" ∨
        (Analyze res DefaultDetectors).1.detectionSrc = str "DataDome" ∨
        (Analyze res DefaultDetectors).1.detectionSrc = str "PerimeterX")) ∨
     ((Analyze res DefaultDetectors).1.detectedBot = false ∧
      (Analyze res DefaultDetectors).1.detectionSrc = [])) ∧
    Analyze (Analyze res DefaultDetectors).1 DefaultDetectors = Analyze res DefaultDetectors := by
  rcases detectCloudflare_cases res with hcf | hcf <;>
    rcases detectAkamai_cases res with hak | hak <;>
      rcases detectDataDome_cases res with hdd | hdd <;>
        rcases detectPerimeterX_cases res with hpx | hpx <;>
          simp [Analyze, DefaultDetectors, hcf, hak, hdd, hpx,
            detectCloudflare_update, detectAkamai_update,
            detectDataDome_update, detectPerimeterX_update]

/-- C4: Fetch always returns a result and a nil Go error, on every path:
limiter failure, request construction failure, transport failure, and the
success path all embed their outcome in the result. -/
theorem fetch_always_returns_result (cfg : FetchConfig) (env : FetchEnv) (u : Str) :
    ((Fetch cfg env u).1).isSome = true ∧ (Fetch cfg env u).2 = none := by
  obtain ⟨t, mr, cj, pp, la⟩ := cfg
  obtain ⟨le, pa, nr, doo, nid, now, el⟩ := env
  cases la <;> cases le <;> cases nr <;> cases doo <;> simp [Fetch]

/-- Environment of a fetch whose HTTP exchange succeeds with status 200
but whose body read fails. -/
def bodyReadFailEnv : FetchEnv :=
  { doOutcome := .ok { statusCode := 200, readErr := some (str "unexpected EOF") } }

/-- Result of the body-read-failure fetch. -/
def bodyReadFailResult : ScrapeResult :=
  ((Fetch {} bodyReadFailEnv (str "http://example.com/a")).1).getD {}

/-- C1 counterexample: on the path where the response body fails to read
after a successful HTTP exchange, Fetch returns a result whose error
field is non-empty while its status_code is the received 200, refuting
the claimed implication on that path. -/
theorem fetch_error_nonzero_status_cex :
    bodyReadFailResult.error ≠ [] ∧ bodyReadFailResult.statusCode = 200 := by
  constructor
  · decide
  · decide

/-- C1 amended: on every path of Fetch other than a body-read failure
(that is, whenever a successful HTTP exchange has a successful body
read), a non-empty error field implies status_code 0. -/
theorem fetch_error_implies_status_zero (cfg : FetchConfig) (env : FetchEnv) (u : Str)
    (r : ScrapeResult) (hr : (Fetch cfg env u).1 = some r)
    (hread : ∀ resp, env.doOutcome = .ok resp → resp.readErr = none)
    (herr : r.error ≠ []) : r.statusCode = 0 := by
  obtain ⟨t, mr, cj, pp, la⟩ := cfg
  obtain ⟨le, pa, nr, doo, nid, now, el⟩ := env
  cases la <;> cases le <;> cases nr <;> cases doo <;> simp_all [Fetch] <;>
    (try (subst hr; rfl)) <;>
    (subst hr
     rw [Analyze_error] at herr
     simp_all)

/-- C1 witness: at a transport-failure environment the amended theorem
yields status_code 0 for the concrete failed fetch result. -/
theorem fetch_error_implies_status_zero_witness :
    (({ doOutcome := .error (str "dial tcp: refused") : FetchEnv}).doOutcome =
        Except.error (str "dial tcp: refused")) ∧
    (((Fetch {} { doOutcome := .error (str "dial tcp: refused") } (str "http://x/")).1).getD
        {}).statusCode = 0 := by
  refine ⟨rfl, ?_⟩
  apply fetch_error_implies_status_zero {}
    { doOutcome := .error (str "dial tcp: refused") } (str "http://x/")
  · rfl
  · intro resp h
    exact absurd h (by simp)
  · decide

/-- C10: the zero-value FetchConfig passes MaxRedirects 0 through
NewFetcher to the HTTP client, whose redirect policy then errors on the
first redirect attempt (via length 1 already reaches the cap), so a fetch
of a redirecting URL carries that client error into a result with a
non-empty error field and status_code 0 instead of following the redirect
or returning the redirect response. -/
theorem zero_redirects_policy_errors (resp : HttpResponse) (hops : List RespStep)
    (env : FetchEnv) (u : Str)
    (hnr : env.newRequestErr = none)
    (hdo : env.doOutcome =
      clientDo (newFetcherConfig {}).maxRedirects (RespStep.redirect resp :: hops)) :
    (newFetcherConfig {}).maxRedirects = 0 ∧
    env.doOutcome = .error (str "context: stopped after redirects") ∧
    (((Fetch (newFetcherConfig {}) env u).1).getD {}).error =
      str "request failed: context: stopped after redirects" ∧
    (((Fetch (newFetcherConfig {}) env u).1).getD {}).statusCode = 0 := by
  have hmr : (newFetcherConfig {}).maxRedirects = 0 := rfl
  have hcd : clientDo (newFetcherConfig {}).maxRedirects (RespStep.redirect resp :: hops) =
      .error (str "context: stopped after redirects") := by
    rw [hmr]
    show (match followRedirects 0 1 (RespStep.redirect resp :: hops) with
          | .ok r => Except.ok r
          | .error e => .error (str "context: " ++ e)) = _
    rw [show followRedirects 0 1 (RespStep.redirect resp :: hops) =
        .error (str "stopped after redirects") from rfl]
    rfl
  rw [hcd] at hdo
  refine ⟨hmr, hdo, ?_, ?_⟩ <;>
    · obtain ⟨le, pa, nr, doo, nid, now, el⟩ := env
      simp only at hnr hdo
      subst hnr hdo
      cases le <;> rfl

/-- C10 witness: a concrete environment whose round trip is the client
outcome on a conversation opening with a redirect. -/
theorem zero_redirects_policy_errors_witness :
    (((Fetch (newFetcherConfig {})
        { doOutcome := clientDo (newFetcherConfig {}).maxRedirects
            [RespStep.redirect {}] }
        (str "http://r.example/")).1).getD {}).error =
      str "request failed: context: stopped after redirects" :=
  (zero_redirects_policy_errors {} [] _ (str "http://r.example/") rfl rfl).2.2.1

/-- C5: the rate limiter Wait contract. With rps at most zero the limiter
has no ticker and Wait returns immediately with no error; with positive
rps and jitter factor j in the unit interval, when neither cancellation
point fires, Wait returns after a tick with an extra sleep of exactly
max 0 (u * j * interval) for the jitter factor u = draw * 2 - 1, so a
negative draw adds no delay beyond the tick interval. -/
theorem limiter_wait_contract (rps j : ℚ) (env : WaitEnv) :
    (rps ≤ 0 → Wait (NewLimiter rps j) env = .immediate) ∧
    (0 < rps → 0 ≤ j → j ≤ 1 →
      env.ctxDoneBeforeTick = false → env.ctxDoneDuringJitter = false →
      Wait (NewLimiter rps j) env =
        .ticked (max 0 ((env.draw * 2 - 1) * j * (goSecond / rps)))) := by
  constructor
  · intro h
    simp [NewLimiter, h, Wait]
  · intro hrps h0 h1 hbt hdj
    have hcl : NewLimiter rps j =
        { hasTicker := true, jitter := j, interval := goSecond / rps } := by
      rw [NewLimiter, if_neg (not_le.mpr hrps)]
      simp only [if_neg (not_lt.mpr h0), if_neg (not_lt.mpr h1)]
    rw [hcl]
    unfold Wait
    simp only [Bool.not_true, hbt, if_neg, Bool.false_eq_true, if_false]
    by_cases hj : 0 < j
    · rw [if_pos hj]
      by_cases hjd : 0 < goSecond / rps * j * (env.draw * 2 - 1)
      · rw [if_pos hjd, if_neg (by rw [hdj]; exact Bool.false_ne_true)]
        congr 1
        rw [max_eq_right (le_of_lt (by nlinarith [hjd]))]
        ring
      · rw [if_neg hjd]
        congr 1
        rw [max_eq_left (by nlinarith [not_lt.mp hjd])]
    · rw [if_neg hj]
      have hj0 : j = 0 := le_antisymm (not_lt.mp hj) h0
      subst hj0
      congr 1
      rw [show (env.draw * 2 - 1) * 0 * (goSecond / rps) = 0 by ring]
      exact (max_self 0).symm

/-- C5 witness: at rps 0 Wait is immediate, and at rps 2 with jitter one
half and draw three quarters the extra sleep is a quarter of the half
second interval. -/
theorem limiter_wait_contract_witness :
    Wait (NewLimiter 0 1) {} = .immediate ∧
    Wait (NewLimiter 2 (1/2)) { draw := 3/4 } = .ticked 125000000 := by
  constructor
  · exact (limiter_wait_contract 0 1 {}).1 (by norm_num)
  · have h := (limiter_wait_contract 2 (1/2) { draw := 3/4 }).2
      (by norm_num) (by norm_num) (by norm_num) rfl rfl
    rw [h]
    norm_num [goSecond]

/-- C6: with a nonempty scope list, a not-yet-visited http or https URL
is admitted by shouldVisit exactly when its lowercased hostname equals
some listed domain (lowercased) or ends with a dot followed by that
domain. -/
theorem shouldVisit_scope_iff (visited domains : List Str) (u : GoHierURL)
    (hD : domains ≠ [])
    (hs : u.scheme = str "http" ∨ u.scheme = str "https")
    (hv : visited.contains (urlString { u with fragment := [] }) = false) :
    shouldVisit visited domains (some u) = true ↔
      ∃ d ∈ domains, lowerStr u.host = lowerStr d ∨
        endsWith (lowerStr u.host) ('.' :: lowerStr d) = true := by
  have hsch : (u.scheme == str "http" || u.scheme == str "https") = true := by
    rcases hs with h | h <;> simp [h]
  have hv2 : urlString { u with fragment := [] } ∉ visited := by
    simpa using hv
  simp [shouldVisit, hv, hv2, hD, hsch, List.isEmpty_iff, or_iff_not_imp_left]

/-- C6 witness: with scope list example.com, an unvisited https URL on a
subdomain with mixed case host is admitted. -/
theorem shouldVisit_scope_iff_witness :
    shouldVisit [] [str "example.com"]
      (some { scheme := str "https", host := str "Sub.Example.com",
              path := str "/p" }) = true := by
  have h := shouldVisit_scope_iff [] [str "example.com"]
    { scheme := str "https", host := str "Sub.Example.com", path := str "/p" }
    (by simp) (Or.inr rfl) (by rfl)
  exact h.mpr ⟨str "example.com", by simp, Or.inr (by decide)⟩

/-- The contested link of the admission race: an in-scope page URL both
workers discover at the same time. -/
def raceURL : GoHierURL :=
  { scheme := str "http", host := str "example.com", path := str "/a" }

/-- C2: the visited-set membership test and the insertion are separate
critical sections (an RLock read in shouldVisit, a later Lock write in
markVisited), so the schedule in which both workers run the membership
test before either inserts admits and enqueues the same URL twice; the
fully serialized schedule admits it exactly once. This exhibits the race
the claim asserts cannot happen. -/
theorem visited_race_double_enqueue :
    (raceRun [] raceURL [true, false, true, false] raceInit).enqueued = 2 ∧
    (raceRun [] raceURL [true, true, false, false] raceInit).enqueued = 1 := by
  constructor <;> rfl

/-- Robots environment in which robots.txt fetches with status 200 but
the robotstxt parse fails. -/
def robotsParseFailEnv : RobotsEnv :=
  { fetchCfg := {},
    fetchEnv := { doOutcome := .ok { statusCode := 200,
                                     body := str "User-agent *" } },
    parseOutcome := .error (str "robotstxt: syntax error") }

/-- Target URL whose host the failing robots.txt belongs to. -/
def robotsTargetURL : GoHierURL :=
  { scheme := str "http", host := str "example.com", path := str "/a" }

/-- C7 counterexample: with a robots.txt that fetches with status 200 but
fails to parse, getOrFetch does produce a parse-error kind, yet IsAllowed
swallows it and answers allow with no error, so no error reaches the
caller of IsAllowed. -/
theorem robots_parse_failure_cex :
    (getOrFetch [] (str "http://example.com") robotsParseFailEnv).2 =
      .error (str "parse error: robotstxt: syntax error") ∧
    (IsAllowed [] robotsParseFailEnv (some robotsTargetURL) (str "*")).2 = .ok true := by
  constructor <;> rfl

/-- C7 amended: when the robots.txt body fetches successfully (no fetch
error, status below 400) but fails to parse, getOrFetch returns a
parse-error kind, but IsAllowed catches any getOrFetch error and fails
open: it answers allow with no error and getOrFetch has cached the
failure sentinel for the host. -/
theorem robots_parse_failure_fails_open (cache : RobotsCache) (env : RobotsEnv)
    (u : GoHierURL) (ua : Str) (e : Str)
    (hmiss : cache.find?
      (fun kv => kv.1 == u.scheme ++ str "://" ++ urlHostPort u) = none)
    (hparse : env.parseOutcome = .error e)
    (hfetch : (((Fetch { env.fetchCfg with maxRedirects := 5 } env.fetchEnv
        ((u.scheme ++ str "://" ++ urlHostPort u) ++ str "/robots.txt")).1).getD
        {}).error = [])
    (hstatus : (((Fetch { env.fetchCfg with maxRedirects := 5 } env.fetchEnv
        ((u.scheme ++ str "://" ++ urlHostPort u) ++ str "/robots.txt")).1).getD
        {}).statusCode < 400) :
    (getOrFetch cache (u.scheme ++ str "://" ++ urlHostPort u) env).2 =
      .error (str "parse error: " ++ e) ∧
    (getOrFetch cache (u.scheme ++ str "://" ++ urlHostPort u) env).1.find?
      (fun kv => kv.1 == u.scheme ++ str "://" ++ urlHostPort u) =
      some (u.scheme ++ str "://" ++ urlHostPort u, none) ∧
    (IsAllowed cache env (some u) ua).2 = .ok true := by
  have hgo : getOrFetch cache (u.scheme ++ str "://" ++ urlHostPort u) env =
      ((u.scheme ++ str "://" ++ urlHostPort u, none) :: cache,
        .error (str "parse error: " ++ e)) := by
    unfold getOrFetch
    rw [hmiss]
    simp only [List.isEmpty_iff] at hfetch ⊢
    rw [if_neg (by simpa [List.isEmpty_iff] using hfetch)]
    rw [if_neg (not_le.mpr hstatus)]
    rw [hparse]
  refine ⟨by rw [hgo], ?_, ?_⟩
  · rw [hgo]
    simp [List.find?]
  · show (match getOrFetch cache (u.scheme ++ str "://" ++ urlHostPort u) env with
        | (c, Except.error _) => (c, Except.ok true)
        | (c, Except.ok none) => (c, Except.ok true)
        | (c, Except.ok (some data)) => (c, Except.ok (data.test ua u.path))).2 =
      Except.ok true
    rw [hgo]

/-- C7 witness: the amended behaviour at the concrete parse-failure
environment. -/
theorem robots_parse_failure_fails_open_witness :
    (getOrFetch [] (str "http://example.com") robotsParseFailEnv).2 =
      .error (str "parse error: " ++ str "robotstxt: syntax error") ∧
    (IsAllowed [] robotsParseFailEnv (some robotsTargetURL) (str "*")).2 = .ok true := by
  have h := robots_parse_failure_fails_open [] robotsParseFailEnv robotsTargetURL
    (str "*") (str "robotstxt: syntax error") rfl rfl (by decide) (by decide)
  exact ⟨h.1, h.2.2⟩

theorem splitGo_ne_nil (s : Str) (hs : s ≠ []) : splitGo s ≠ [] := by
  unfold splitGo
  split
  · rw [if_neg (by simpa [List.isEmpty_iff] using hs)]
    simp
  · simp

theorem ftmLoop_characterization (lowerContent url domain : Str)
    (sentenceData : List SentenceData) (terms : List Str) :
    ftmLoop lowerContent url domain sentenceData terms =
      (terms.filter (fun t => containsSub lowerContent (lowerStr t))).map
        (fun t =>
          { term := t, url := url, domain := domain,
            count := countSub lowerContent (lowerStr t),
            sentences := (sentenceData.filter
                (fun sd => containsSub sd.lower (lowerStr t))).map
                (fun sd => sd.original) }) := by
  induction terms with
  | nil => rfl
  | cons t rest ih =>
    rw [ftmLoop]
    by_cases hc : countSub lowerContent (lowerStr t) = 0
    · have hcont : containsSub lowerContent (lowerStr t) = false :=
        (countSub_eq_zero_iff _ _).mp hc
      simp [hc, hcont, ih]
    · have hcont : containsSub lowerContent (lowerStr t) = true := by
        rcases Bool.eq_false_or_eq_true (containsSub lowerContent (lowerStr t)) with h | h
        · exact h
        · exact absurd ((countSub_eq_zero_iff _ _).mpr h) hc
      simp [hc, hcont, ih]

/-- C8: for nonempty content, FindTermMatchesOptimized returns exactly one
TermMatch per term whose lowercased form occurs in the lowercased
content, in term order, and its sentences are exactly the split sentences
whose lowercased form contains the lowercased term, in document order, by
original trimmed text. -/
theorem findTermMatchesOptimized_characterization (content url domain : Str)
    (terms : List Str) (hc : content ≠ []) :
    findTermMatchesOptimized content url domain terms =
      (terms.filter (fun t => containsSub (lowerStr content) (lowerStr t))).map
        (fun t =>
          { term := t, url := url, domain := domain,
            count := countSub (lowerStr content) (lowerStr t),
            sentences := ((splitIntoSentencesOptimized content).filter
                (fun sd => containsSub sd.lower (lowerStr t))).map
                (fun sd => sd.original) }) := by
  unfold findTermMatchesOptimized
  have hce : content.isEmpty = false := by simpa [List.isEmpty_iff] using hc
  cases terms with
  | nil => simp [hce]
  | cons t rest =>
    rw [if_neg (by simp [hce])]
    have hsd : (splitIntoSentencesOptimized content).isEmpty = false := by
      have : splitGo content ≠ [] := splitGo_ne_nil content hc
      simp only [splitIntoSentencesOptimized, hce, Bool.false_eq_true, if_false,
        List.isEmpty_iff]
      simpa [splitIntoSentencesOptimized, hce] using this
    rw [if_neg (by simp [hsd])]
    exact ftmLoop_characterization _ _ _ _ _

/-- C8 witness: the characterization applied to a concrete page with two
sentences and a mixed-case term. -/
theorem findTermMatchesOptimized_characterization_witness :
    findTermMatchesOptimized (str "Cats sleep. Dogs bark!") (str "http://u/")
        (str "u") [str "DOGS", str "fish"] =
      (([str "DOGS", str "fish"].filter
          (fun t => containsSub (lowerStr (str "Cats sleep. Dogs bark!")) (lowerStr t))).map
        (fun t =>
          { term := t, url := str "http://u/", domain := str "u",
            count := countSub (lowerStr (str "Cats sleep. Dogs bark!")) (lowerStr t),
            sentences := ((splitIntoSentencesOptimized (str "Cats sleep. Dogs bark!")).filter
                (fun sd => containsSub sd.lower (lowerStr t))).map
                (fun sd => sd.original) })) :=
  findTermMatchesOptimized_characterization (str "Cats sleep. Dogs bark!")
    (str "http://u/") (str "u") [str "DOGS", str "fish"] (by decide)

/-
Character-level facts about Char.toLower and the scheme character
classes, used for canonicalization idempotence.
-/

theorem toNat_ofNat_valid (n : Nat) (h : n < 55296) : (Char.ofNat n).toNat = n := by
  rw [Char.ofNat, dif_pos (Or.inl h)]
  rfl

theorem char_eq_of_toNat_eq {a b : Char} (h : a.toNat = b.toNat) : a = b := by
  have h2 := Char.ofNat_toNat a
  rw [h, Char.ofNat_toNat] at h2
  exact h2.symm

theorem char_ne_of_toNat_ne {a b : Char} (h : a.toNat ≠ b.toNat) : a ≠ b :=
  fun he => h (he ▸ rfl)

theorem toLower_toNat (c : Char) :
    (Char.toLower c).toNat =
      if 65 ≤ c.toNat ∧ c.toNat ≤ 90 then c.toNat + 32 else c.toNat := by
  simp only [Char.toLower]
  by_cases h : 65 ≤ c.toNat ∧ c.toNat ≤ 90
  · rw [if_pos ⟨h.1, h.2⟩, if_pos h, toNat_ofNat_valid _ (by omega)]
  · rw [if_neg (fun hc => h ⟨hc.1, hc.2⟩), if_neg h]

theorem toLower_idem (c : Char) : Char.toLower (Char.toLower c) = Char.toLower c := by
  apply char_eq_of_toNat_eq
  rw [toLower_toNat, toLower_toNat]
  by_cases h : 65 ≤ c.toNat ∧ c.toNat ≤ 90
  · rw [if_pos h, if_neg (by omega)]
  · rw [if_neg h, if_neg h]

theorem isSchemeChar_iff_toNat (c : Char) :
    isSchemeChar c = true ↔
      (65 ≤ c.toNat ∧ c.toNat ≤ 90) ∨ (97 ≤ c.toNat ∧ c.toNat ≤ 122) ∨
      (48 ≤ c.toNat ∧ c.toNat ≤ 57) ∨ c.toNat = 43 ∨ c.toNat = 45 ∨ c.toNat = 46 := by
  have h43 : c = '+' ↔ c.toNat = 43 :=
    ⟨fun h => by rw [h]; rfl, fun h => char_eq_of_toNat_eq (by rw [h]; rfl)⟩
  have h45 : c = '-' ↔ c.toNat = 45 :=
    ⟨fun h => by rw [h]; rfl, fun h => char_eq_of_toNat_eq (by rw [h]; rfl)⟩
  have h46 : c = '.' ↔ c.toNat = 46 :=
    ⟨fun h => by rw [h]; rfl, fun h => char_eq_of_toNat_eq (by rw [h]; rfl)⟩
  simp only [isSchemeChar, Bool.or_eq_true, Bool.and_eq_true, decide_eq_true_eq, h43, h45, h46]
  tauto

theorem isAlphaChar_iff_toNat (c : Char) :
    isAlphaChar c = true ↔
      (65 ≤ c.toNat ∧ c.toNat ≤ 90) ∨ (97 ≤ c.toNat ∧ c.toNat ≤ 122) := by
  simp [isAlphaChar]

theorem isSchemeChar_of_alpha (c : Char) (h : isAlphaChar c = true) :
    isSchemeChar c = true := by
  rw [isAlphaChar_iff_toNat] at h
  rw [isSchemeChar_iff_toNat]
  tauto

theorem toLower_scheme_ne_hash (c : Char) (h : isSchemeChar c = true) :
    ((Char.toLower c) != '#') = true := by
  rw [bne_iff_ne]
  apply char_ne_of_toNat_ne
  rw [isSchemeChar_iff_toNat] at h
  rw [toLower_toNat]
  show _ ≠ 35
  by_cases hc : 65 ≤ c.toNat ∧ c.toNat ≤ 90
  · rw [if_pos hc]; omega
  · rw [if_neg hc]; omega

theorem toLower_scheme_ne_colon (c : Char) (h : isSchemeChar c = true) :
    ((Char.toLower c) != ':') = true := by
  rw [bne_iff_ne]
  apply char_ne_of_toNat_ne
  rw [isSchemeChar_iff_toNat] at h
  rw [toLower_toNat]
  show _ ≠ 58
  by_cases hc : 65 ≤ c.toNat ∧ c.toNat ≤ 90
  · rw [if_pos hc]; omega
  · rw [if_neg hc]; omega

theorem isSchemeChar_toLower (c : Char) (h : isSchemeChar c = true) :
    isSchemeChar (Char.toLower c) = true := by
  rw [isSchemeChar_iff_toNat] at h ⊢
  rw [toLower_toNat]
  by_cases hc : 65 ≤ c.toNat ∧ c.toNat ≤ 90
  · rw [if_pos hc]; omega
  · rw [if_neg hc]; omega

theorem isAlphaChar_toLower (c : Char) (h : isAlphaChar c = true) :
    isAlphaChar (Char.toLower c) = true := by
  rw [isAlphaChar_iff_toNat] at h ⊢
  rw [toLower_toNat]
  by_cases hc : 65 ≤ c.toNat ∧ c.toNat ≤ 90
  · rw [if_pos hc]; omega
  · rw [if_neg hc]; omega

theorem takeWhile_append_cons {α : Type} (p : α → Bool) (L : List α) (d : α) (R : List α)
    (hL : ∀ c ∈ L, p c = true) (hd : p d = false) :
    (L ++ d :: R).takeWhile p = L ∧ (L ++ d :: R).dropWhile p = d :: R := by
  induction L with
  | nil =>
    simp [List.takeWhile_cons, List.dropWhile_cons, hd]
  | cons a L ih =>
    have pa : p a = true := hL a (List.mem_cons_self a L)
    have ihh := ih (fun c hc => hL c (List.mem_cons_of_mem a hc))
    simp [List.takeWhile_cons, List.dropWhile_cons, pa, ihh.1, ihh.2]

theorem dropWhile_cons_head {α : Type} (p : α → Bool) (l : List α) (x : α) (xs : List α)
    (h : l.dropWhile p = x :: xs) : p x = false := by
  induction l with
  | nil => simp at h
  | cons a l ih =>
    rw [List.dropWhile_cons] at h
    by_cases hp : p a = true
    · rw [if_pos hp] at h
      exact ih h
    · rw [if_neg hp] at h
      cases h
      simpa using hp

theorem validScheme_mem (l : List Char) (h : validScheme l = true) :
    ∀ c ∈ l, isSchemeChar c = true := by
  cases l with
  | nil => simp [validScheme] at h
  | cons c0 cs =>
    simp only [validScheme, Bool.and_eq_true, List.all_eq_true] at h
    intro c hc
    rcases List.mem_cons.mp hc with rfl | hc
    · exact isSchemeChar_of_alpha _ h.1
    · exact h.2 c hc

theorem validScheme_lower (l : List Char) (h : validScheme l = true) :
    validScheme (lowerStr l) = true := by
  cases l with
  | nil => simp [validScheme] at h
  | cons c0 cs =>
    simp only [validScheme, Bool.and_eq_true, List.all_eq_true] at h
    simp only [lowerStr, List.map_cons, validScheme, Bool.and_eq_true, List.all_eq_true]
    refine ⟨isAlphaChar_toLower _ h.1, ?_⟩
    intro c hc
    obtain ⟨c', hc', rfl⟩ := List.mem_map.mp hc
    exact isSchemeChar_toLower _ (h.2 c' hc')

theorem lowerStr_idem (l : Str) : lowerStr (lowerStr l) = lowerStr l := by
  simp only [lowerStr, List.map_map]
  exact List.map_congr_left (fun c _ => toLower_idem c)

/-- C9: the canonicalization performed by shouldVisit and markVisited
(parse the URL, strip the fragment, serialize) is idempotent: whenever a
URL string canonicalizes, the canonical form canonicalizes to itself. -/
theorem canonURL_idem (s t : Str) (h : canonURL s = some t) : canonURL t = some t := by
  unfold canonURL parseAbs at h
  simp only [] at h
  split at h
  · simp at h
  · rename_i x rest hdw
    by_cases hvs : validScheme
        ((s.takeWhile (fun c => c != '#')).takeWhile (fun c => c != ':')) = true
    · rw [if_pos hvs] at h
      simp only [Option.map_some'] at h
      set SP := (s.takeWhile (fun c => c != '#')).takeWhile (fun c => c != ':') with hSP
      -- the canonical string
      have ht : t = lowerStr SP ++ ':' :: rest := by
        rw [← Option.some_inj, ← h]
        simp [flatString]
      -- character facts
      have hSPscheme : ∀ c ∈ SP, isSchemeChar c = true := validScheme_mem SP hvs
      have hrest_hash : ∀ c ∈ rest, (c != '#') = true := by
        intro c hc
        have hsub : x :: rest ⊆ s.takeWhile (fun c => c != '#') := by
          rw [← hdw]
          exact List.dropWhile_subset _
        have hmem := hsub (List.mem_cons_of_mem x hc)
        have hp := List.mem_takeWhile_imp hmem
        exact hp
      have hlow_hash : ∀ c ∈ lowerStr SP, (c != '#') = true := by
        intro c hc
        obtain ⟨c', hc', rfl⟩ := List.mem_map.mp hc
        exact toLower_scheme_ne_hash c' (hSPscheme c' hc')
      have hlow_colon : ∀ c ∈ lowerStr SP, (c != ':') = true := by
        intro c hc
        obtain ⟨c', hc', rfl⟩ := List.mem_map.mp hc
        exact toLower_scheme_ne_colon c' (hSPscheme c' hc')
      -- reparse of t
      have htw : t.takeWhile (fun c => c != '#') = t := by
        apply List.takeWhile_eq_self_iff.mpr
        intro c hc
        rw [ht] at hc
        rcases List.mem_append.mp hc with hc | hc
        · exact hlow_hash c hc
        · rcases List.mem_cons.mp hc with rfl | hc
          · rfl
          · exact hrest_hash c hc
      have hdwh : t.dropWhile (fun c => c != '#') = [] := by
        apply List.dropWhile_eq_nil_iff.mpr
        intro c hc
        rw [ht] at hc
        rcases List.mem_append.mp hc with hc | hc
        · simpa using hlow_hash c hc
        · rcases List.mem_cons.mp hc with rfl | hc
          · simp
          · simpa using hrest_hash c hc
      have hsplit := takeWhile_append_cons (fun c => c != ':') (lowerStr SP) ':' rest
        hlow_colon (by simp)
      subst ht
      unfold canonURL parseAbs
      simp only [htw, hsplit.1, hsplit.2, hdwh, List.tail_nil,
        validScheme_lower SP hvs, if_true, Option.map_some']
      simp [flatString, lowerStr_idem]
    · rw [if_neg hvs] at h
      simp at h

/-- C9 witness: a concrete URL with an upper-case scheme and a fragment
canonicalizes, and its canonical form is a fixed point. -/
theorem canonURL_idem_witness :
    canonURL (str "http://Example.com/a?q=1") = some (str "http://Example.com/a?q=1") :=
  canonURL_idem (str "HTTP://Example.com/a?q=1#frag") (str "http://Example.com/a?q=1")
    (by decide)

end Burr
